import Mathlib

/-!
Verification development for the CSSLint core of this repository
(vendor-overwrites/csslint/csslint.js and the worker command dispatcher).

The stylesheet text is modelled as a list of characters.  JavaScript string
primitives used by the source (indexOf with a start position, lastIndexOf
with an end position, toLowerCase, trim, includes) are given executable
translations below.  JavaScript numbers appearing as indices or severities
are modelled as Int where they can be negative (indexOf results), and as
Nat where they are positions.  The external structural parser is out of
scope (spec section 2): the event stream it feeds to the registered rules
is abstracted as a list of Reporter calls, which is the only channel rules
use to affect a run.
-/

abbrev Str := List Char

/-- The characters treated as whitespace here: the ASCII part of the
JavaScript regex class backslash-s (tab, LF, VT, FF, CR, space); the
source texts relevant to the directives only use space and LF. -/
def jsIsSpace (c : Char) : Bool :=
  [9, 10, 11, 12, 13, 32].contains c.toNat

/-- JavaScript String.prototype.indexOf with a start position, for a
non-empty search pattern (every use in the source has one): the least
index at or after `start` where `pat` occurs in `s`, or -1. -/
def indexOfFrom (s pat : Str) (start : Nat) : Int :=
  match (List.range (s.length + 1)).find? (fun i => decide (start ≤ i) && pat.isPrefixOf (s.drop i)) with
  | some i => (i : Int)
  | none => -1

/-- JavaScript String.prototype.lastIndexOf with an end position: the
largest index at most `pos` where `pat` occurs in `s`, or -1. -/
def lastIndexOfLe (s pat : Str) (pos : Nat) : Int :=
  match ((List.range (s.length + 1)).filter (fun i => decide (i ≤ pos) && pat.isPrefixOf (s.drop i))).getLast? with
  | some i => (i : Int)
  | none => -1

/-- JavaScript String.prototype.includes: `pat` occurs somewhere in `s`. -/
def jsIncludes (s pat : Str) : Bool :=
  (List.range (s.length + 1)).any (fun i => pat.isPrefixOf (s.drop i))

/-- JavaScript `a || b` on numbers, as used by the source on indexOf
results: `a` unless it is 0. -/
def jsOrInt (a b : Int) : Int :=
  if a = 0 then b else a

/-- Lookup in a JavaScript-object-like association list. -/
def rsGet (rs : List (String × Int)) (k : String) : Option Int :=
  (rs.find? (fun p => p.1 == k)).map (fun p => p.2)

/-- Key assignment on a JavaScript-object-like association list:
overwrite in place if the key exists, otherwise append. -/
def rsSet (rs : List (String × Int)) (k : String) (v : Int) : List (String × Int) :=
  if rs.any (fun p => p.1 == k) then
    rs.map (fun p => if p.1 == k then (k, v) else p)
  else
    rs ++ [(k, v)]

/-- A rule object as the engine sees it: the identifying `id` plus its
remaining serializable fields (name, desc, url, browsers); the `init`
listener-attaching closure is abstracted (rules only act through the
Reporter, see `RepAction`). -/
structure CRule where
  id : String
  extra : List (String × String) := []
deriving DecidableEq

inductive MsgKind where
  | error
  | warning
  | info
deriving DecidableEq

/-- A finding.  The source only ever pushes two object shapes onto
`messages`: positioned messages carrying type/evidence/line/col/message/rule
(from `error`, `report`, `info`), and rollup messages carrying
type/rollup:true/message/rule with no line or col (from `rollupError`,
`rollupWarn`). -/
inductive Message where
  | located (kind : MsgKind) (line col : Int) (evidence : Option String) (text : String) (rule : CRule)
  | rollup (kind : MsgKind) (text : String) (rule : CRule)
deriving DecidableEq

def Message.isRollup : Message → Bool
  | .located .. => false
  | .rollup .. => true

def Message.lineOf : Message → Int
  | .located _ line _ _ _ _ => line
  | .rollup _ _ _ => 0

def Message.textOf : Message → String
  | .located _ _ _ _ t _ => t
  | .rollup _ t _ => t

def Message.ruleOf : Message → CRule
  | .located _ _ _ _ _ r => r
  | .rollup _ _ r => r

/-- The Reporter state: accumulated messages and stats plus the run
configuration it was constructed with (source lines for evidence, the
effective ruleset, the allow map and the ignore ranges). -/
structure Reporter where
  messages : List Message
  stats : List (String × Int)
  lines : List String
  ruleset : List (String × Int)
  allow : List (Int × List String)
  ignore : List (Int × Int)
deriving DecidableEq

/-- JavaScript `this.lines[line - 1]`: undefined (none) when out of range. -/
def jsLinesGet (lines : List String) (line : Int) : Option String :=
  if 0 ≤ line - 1 then lines[(line - 1).toNat]? else none

/-- Lookup of `this.allow[line]`. -/
def allowGet (allow : List (Int × List String)) (line : Int) : Option (List String) :=
  (allow.find? (fun p => p.1 == line)).map (fun p => p.2)

/-- Reporter.error: unconditionally push a type error message. -/
def Reporter.error (r : Reporter) (msg : String) (line col : Int) (rule : CRule) : Reporter :=
  { r with messages := r.messages ++ [.located .error line col (jsLinesGet r.lines line) msg rule] }

/-- Reporter.report: drop the finding if the line's allow entry lists the
rule id, or some ignore range contains the line; otherwise push a message
whose type is error exactly when the ruleset maps the rule id to 2
(the strict `=== 2` comparison of the source). -/
def Reporter.report (r : Reporter) (msg : String) (line col : Int) (rule : CRule) : Reporter :=
  if (allowGet r.allow line).any (fun ids => ids.contains rule.id)
      || r.ignore.any (fun rg => decide (rg.1 ≤ line) && decide (line ≤ rg.2)) then
    r
  else
    { r with messages := r.messages ++
        [.located (if rsGet r.ruleset rule.id = some 2 then .error else .warning)
          line col (jsLinesGet r.lines line) msg rule] }

/-- Reporter.info: unconditionally push a type info message. -/
def Reporter.info (r : Reporter) (msg : String) (line col : Int) (rule : CRule) : Reporter :=
  { r with messages := r.messages ++ [.located .info line col (jsLinesGet r.lines line) msg rule] }

def Reporter.rollupError (r : Reporter) (msg : String) (rule : CRule) : Reporter :=
  { r with messages := r.messages ++ [.rollup .error msg rule] }

def Reporter.rollupWarn (r : Reporter) (msg : String) (rule : CRule) : Reporter :=
  { r with messages := r.messages ++ [.rollup .warning msg rule] }

def Reporter.stat (r : Reporter) (name : String) (value : Int) : Reporter :=
  { r with stats := rsSet r.stats name value }

/-- One call a rule listener (or the parse-failure catch branch) makes on
the Reporter during the parse phase.  Rules interact with a run only
through these calls. -/
inductive RepAction where
  | error (msg : String) (line col : Int) (rule : CRule)
  | report (msg : String) (line col : Int) (rule : CRule)
  | info (msg : String) (line col : Int) (rule : CRule)
  | rollupError (msg : String) (rule : CRule)
  | rollupWarn (msg : String) (rule : CRule)
  | stat (name : String) (value : Int)
deriving DecidableEq

def applyAction (r : Reporter) : RepAction → Reporter
  | .error msg line col rule => r.error msg line col rule
  | .report msg line col rule => r.report msg line col rule
  | .info msg line col rule => r.info msg line col rule
  | .rollupError msg rule => r.rollupError msg rule
  | .rollupWarn msg rule => r.rollupWarn msg rule
  | .stat name value => r.stat name value

/-- The sort comparator of `verify`:
`a.rollup && !b.rollup ? 1 : !a.rollup && b.rollup ? -1 : a.line - b.line`.
Rollup messages carry no line, so for two rollups `a.line - b.line` is NaN,
which the sort treats as 0 (equal). -/
def jsSortCompare (a b : Message) : Int :=
  if a.isRollup && !b.isRollup then 1
  else if !a.isRollup && b.isRollup then -1
  else
    match a, b with
    | .located _ la _ _ _ _, .located _ lb _ _ _ _ => la - lb
    | _, _ => 0

def msgLE (a b : Message) : Bool :=
  decide (jsSortCompare a b ≤ 0)

/-- The message sort of `verify`.  Array.prototype.sort is required to be
stable, and mergeSort is the stable sort used to model it. -/
def sortMessages (l : List Message) : List Message :=
  l.mergeSort msgLE

/-- The comparator of `getRules`:
`a.id < b.id ? -1 : a.id > b.id ? 1 : 0`. -/
def ruleCompare (a b : CRule) : Int :=
  if a.id < b.id then -1 else if b.id < a.id then 1 else 0

def ruleLE (a b : CRule) : Bool :=
  decide (ruleCompare a b ≤ 0)

/-- CSSLint.getRules: a sorted copy of the registered-rules list. -/
def getRules (registry : List CRule) : List CRule :=
  registry.mergeSort ruleLE

/-- CSSLint.getRuleset: every registered rule id mapped to warning (1). -/
def getRuleset (registry : List CRule) : List (String × Int) :=
  registry.foldl (fun rs r => rsSet rs r.id 1) []

/-- The worker's getAllRuleIds command: `CSSLint.getRules().map(rule => rule.id)`. -/
def getAllRuleIds (registry : List CRule) : List String :=
  (getRules registry).map CRule.id

/-!
The embedded-directive scan.  RX_EMBEDDED is the regex
`/\*` `\s*` `csslint` (case-insensitive) `\s+` `BODY` `\*/` with BODY the
lazy one-or-more of (any non-star character, or a star not followed by a
slash), run with the global flag, so exec finds the leftmost match whose
start is at or after lastIndex and then moves lastIndex to the match end.
The backtracking behaviour of this particular pattern is deterministic and
is translated below: the greedy whitespace run after `csslint` gives up at
most one character to the lazy BODY, which then extends exactly to the
first star-slash.
-/

def charsSlashStar : Str := ['/', '*']

def charsCsslint : Str := "csslint".data

def charsNewline : Str := ['\n']

/-- Length of the maximal whitespace run of `s`. -/
def wsCount : Str → Nat
  | [] => 0
  | c :: cs => if jsIsSpace c then wsCount cs + 1 else 0

/-- Length of the maximal whitespace run of `text` starting at `p`. -/
def wsRunFrom (text : Str) (p : Nat) : Nat :=
  wsCount (text.drop p)

/-- Case-insensitive literal match of `pat` against the front of `s`
(ASCII lowering, which covers the letters of `csslint`). -/
def ciStarts : Str → Str → Bool
  | [], _ => true
  | _ :: _, [] => false
  | p :: ps, c :: cs => (c.toLower == p.toLower) && ciStarts ps cs

def strSlice (text : Str) (a b : Nat) : Str :=
  (text.drop a).take (b - a)

/-- Attempt to match RX_EMBEDDED at position `p` of `text`.  On success
returns the position just past the match together with the first capture
group (the directive body).  Writing s0 for the end of the whitespace run
after the comment opener, s for the end of the `csslint` literal, n for
the maximal whitespace run at s and t for the first star-slash at or
after s (necessarily t is at least s + n since whitespace is never a
star): the match succeeds when n is at least 1 and t exists with t at
least s + 2, the lazy body running from min (s + n) (t - 1) to t. -/
def tryMatchAt (text : Str) (p : Nat) : Option (Nat × Str) :=
  if charsSlashStar.isPrefixOf (text.drop p) then
    let s0 := p + 2 + wsRunFrom text (p + 2)
    if ciStarts charsCsslint (text.drop s0) then
      let s := s0 + 7
      let n := wsRunFrom text s
      if n = 0 then none
      else
        let t := indexOfFrom text ['*', '/'] s
        if t < 0 then none
        else if s + 2 ≤ t.toNat then
          some (t.toNat + 2, strSlice text (min (s + n) (t.toNat - 1)) t.toNat)
        else none
    else none
  else none

/-- RX_EMBEDDED.exec with lastIndex `pos`: the leftmost match starting at
or after `pos`, as (match start, new lastIndex, capture group 1). -/
def execEmbedded (text : Str) (pos : Nat) : Option (Nat × Nat × Str) :=
  match (List.range text.length).find? (fun p => decide (pos ≤ p) && (tryMatchAt text p).isSome) with
  | some p =>
    match tryMatchAt text p with
    | some (e, cap) => some (p, e, cap)
    | none => none
  | none => none

/-- All exec matches from `pos` on, in order.  Every successful match ends
strictly past its start, so positions strictly increase and
`text.length + 1 - pos` iterations always suffice; `max (pos + 1) e`
equals `e` for every real match and only makes the recursion structural. -/
def execMatchesFuel (text : Str) : Nat → Nat → List (Nat × Nat × Str)
  | _, 0 => []
  | pos, fuel + 1 =>
    match execEmbedded text pos with
    | none => []
    | some (idx, e, cap) => (idx, e, cap) :: execMatchesFuel text (max (pos + 1) e) fuel

def allMatchesFrom (text : Str) (pos : Nat) : List (Nat × Nat × Str) :=
  execMatchesFuel text pos (text.length + 1 - pos)

inductive JSFault where
  | typeError
deriving DecidableEq

/-- The loop state of applyEmbeddedOverrides, together with the module
level regex cursor RX_EMBEDDED.lastIndex that exec advances. -/
structure AeoState where
  lastIndex : Int
  eol : Int
  lineno : Int
  ignoreStart : Option Int
  ignoreEnd : Option Int
  ruleset : List (String × Int)
  allow : List (Int × List String)
  ignore : List (Int × Int)
deriving DecidableEq

/-- The loop body of applyEmbeddedOverrides over the exec matches.  Each
iteration recomputes eol as the next newline at or after the previous eol
(or text length when there is none) and skips the match (still advancing
lineno, the for-loop update) when that eol is before the match start.
Otherwise the directive is processed: the source computes
`ovr = m[1].toLowerCase()` and then `cmd = ovr.split(':', 1)`, which is an
Array (the original upstream code took `[0]` of it), so the switch
discriminant `cmd.trim()` calls a method Arrays do not have and raises a
TypeError; the allow / ignore / severity cases below it are unreachable.
When the match list is exhausted, the final failed exec of the loop
condition resets lastIndex to 0. -/
def aeoRun (text : Str) : List (Nat × Nat × Str) → AeoState → AeoState × Option JSFault
  | [], st => ({ st with lastIndex := 0 }, none)
  | m :: ms, st =>
    let st1 : AeoState := { st with lastIndex := (m.2.1 : Int) }
    let eol := jsOrInt (indexOfFrom text charsNewline st1.eol.toNat + 1) ((text.length : Int) + 1) - 1
    if eol < (m.1 : Int) then
      aeoRun text ms { st1 with eol := eol, lineno := st1.lineno + 1 }
    else
      ({ st1 with eol := eol }, some .typeError)

/-- applyEmbeddedOverrides, entered with the regex cursor at `startPos`
(the value verify assigned).  On a normal exit a still-open ignore block
is closed with the final lineno. -/
def applyEmbeddedOverrides (text : Str) (ruleset : List (String × Int)) (startPos : Nat) :
    AeoState × Option JSFault :=
  let st0 : AeoState :=
    { lastIndex := (startPos : Int), eol := 0, lineno := 0, ignoreStart := none,
      ignoreEnd := none, ruleset := ruleset, allow := [], ignore := [] }
  match aeoRun text (allMatchesFrom text startPos) st0 with
  | (st, some e) => (st, some e)
  | (st, none) =>
    match st.ignoreStart with
    | some s => ({ st with ignore := st.ignore ++ [(s, st.lineno)] }, none)
    | none => (st, none)

/-- The value-to-severity table EBMEDDED_RULE_VALUE_MAP of the source.
It is only consulted by the severity-directive case of the switch, which
the TypeError above makes unreachable. -/
def embeddedRuleValueMap (v : String) : Option Int :=
  if v = "true" then some 2
  else if v = "2" then some 2
  else if v = "" then some 1
  else if v = "1" then some 1
  else if v = "false" then some 0
  else if v = "0" then some 0
  else none

/-- The prescan of verify that seeds RX_EMBEDDED.lastIndex:
`text.lastIndexOf('/*', text.indexOf('csslint', text.indexOf('/*') + 1 || text.length) + 1)`. -/
def prescanIndex (text : Str) : Int :=
  lastIndexOfLe text charsSlashStar
    ((indexOfFrom text charsCsslint
        ((jsOrInt (indexOfFrom text charsSlashStar 0 + 1) (text.length : Int)).toNat) + 1).toNat)

/-- The report object verify assembles. -/
structure Report where
  messages : List Message
  stats : List (String × Int)
  ruleset : List (String × Int)
  allow : List (Int × List String)
  ignore : List (Int × Int)
deriving DecidableEq

deriving instance DecidableEq for Except

/-- The observable outcome of one verify call: the returned report (or the
propagated exception), the caller-supplied ruleset object as it stands
after the call (none when the caller passed none), and the module-level
regex cursor after the call. -/
structure VerifyOutcome where
  result : Except JSFault Report
  callerRuleset : Option (List (String × Int))
  lastIndexOut : Int
deriving DecidableEq

/-- CSSLint.verify.  `lastIndexIn` is the module-level RX_EMBEDDED.lastIndex
left over from earlier calls: the source overwrites it with the prescan
before any exec, so it is never read.  `acts` abstracts the parse phase:
the Reporter calls made by the attached rule listeners and by the catch
branch while the external structural parser consumes `text` (a
deterministic function of the text and the effective ruleset, both fixed
here).  When the prescan finds a candidate comment the ruleset is cloned
(`Object.assign({}, ruleset)`) and the caller's object is untouched;
otherwise `ruleset.errors = 2` (which runs after the Reporter is
constructed but aliases the Reporter's ruleset) mutates the
caller-supplied object itself. -/
def verify (registry : List CRule) (lastIndexIn : Int) (text : Str)
    (rulesetArg : Option (List (String × Int))) (acts : List RepAction) : VerifyOutcome :=
  let rs0 := rulesetArg.getD (getRuleset registry)
  let li := prescanIndex text
  if 0 ≤ li then
    match applyEmbeddedOverrides text rs0 li.toNat with
    | (st, some e) =>
      { result := .error e, callerRuleset := rulesetArg, lastIndexOut := st.lastIndex }
    | (st, none) =>
      let rs2 := rsSet st.ruleset "errors" 2
      let rep0 : Reporter :=
        { messages := [], stats := [], lines := [], ruleset := rs2,
          allow := st.allow, ignore := st.ignore }
      let repN := acts.foldl applyAction rep0
      { result := .ok
          { messages := sortMessages repN.messages, stats := repN.stats,
            ruleset := repN.ruleset, allow := repN.allow, ignore := repN.ignore },
        callerRuleset := rulesetArg, lastIndexOut := st.lastIndex }
  else
    let rs2 := rsSet rs0 "errors" 2
    let rep0 : Reporter :=
      { messages := [], stats := [], lines := [], ruleset := rs2, allow := [], ignore := [] }
    let repN := acts.foldl applyAction rep0
    { result := .ok
        { messages := sortMessages repN.messages, stats := repN.stats,
          ruleset := repN.ruleset, allow := repN.allow, ignore := repN.ignore },
      callerRuleset := rulesetArg.map (fun _ => rs2), lastIndexOut := li }

/-- The worker's run command applied to a verify report: it posts only the
messages list, with
`.filter(m => !m.message.includes('/*[[') && !m.message.includes(']]*/'))`
and `.map(m => Object.assign(m, {rule: {id: m.rule.id}}))`. -/
def workerRunPost (rep : Report) : List Message :=
  (rep.messages.filter (fun m =>
      !(jsIncludes m.textOf.data ("/*[[".data)) && !(jsIncludes m.textOf.data ("]]*/".data)))).map
    (fun m =>
      match m with
      | .located kind line col ev t r => .located kind line col ev t { id := r.id }
      | .rollup kind t r => .rollup kind t { id := r.id })

/-!
Theorems for the claims, preceded by shared helper lemmas.
-/

lemma reportSuppressedIff (r : Reporter) (line : Int) (rule : CRule) :
    ((allowGet r.allow line).any (fun ids => ids.contains rule.id)
      || r.ignore.any (fun rg => decide (rg.1 ≤ line) && decide (line ≤ rg.2))) = true ↔
    ((∃ ids, allowGet r.allow line = some ids ∧ rule.id ∈ ids) ∨
      (∃ rg ∈ r.ignore, rg.1 ≤ line ∧ line ≤ rg.2)) := by
  rw [Bool.or_eq_true]
  apply or_congr
  · cases h : allowGet r.allow line <;> simp [Option.any, h]
  · simp only [List.any_eq_true, Bool.and_eq_true, decide_eq_true_eq]

/-- C3: a call Reporter.report(msg, line, col, rule) appends nothing at all
when rule.id is listed in the allow map at that line or the line lies in
some inclusive ignore range; otherwise it appends exactly one message
whose type is error precisely when the effective ruleset maps rule.id to
exactly 2, and warning otherwise. -/
theorem c3_report_suppression_and_severity (r : Reporter) (msg : String) (line col : Int)
    (rule : CRule) :
    (((∃ ids, allowGet r.allow line = some ids ∧ rule.id ∈ ids) ∨
        (∃ rg ∈ r.ignore, rg.1 ≤ line ∧ line ≤ rg.2)) →
      (r.report msg line col rule).messages = r.messages) ∧
    (¬ ((∃ ids, allowGet r.allow line = some ids ∧ rule.id ∈ ids) ∨
        (∃ rg ∈ r.ignore, rg.1 ≤ line ∧ line ≤ rg.2)) →
      (r.report msg line col rule).messages = r.messages ++
        [.located (if rsGet r.ruleset rule.id = some 2 then .error else .warning)
          line col (jsLinesGet r.lines line) msg rule]) := by
  constructor
  · intro h
    unfold Reporter.report
    rw [if_pos ((reportSuppressedIff r line rule).mpr h)]
  · intro h
    unfold Reporter.report
    rw [if_neg (fun hb => h ((reportSuppressedIff r line rule).mp hb))]

def ruleDemoX : CRule := { id := "x", extra := [] }

def reporterDemo : Reporter :=
  { messages := [], stats := [], lines := [], ruleset := [("x", 2)],
    allow := [(3, ["y"])], ignore := [(10, 20)] }

theorem c3_report_suppression_and_severity_witness :
    (reporterDemo.report "m" 1 1 ruleDemoX).messages =
      [.located .error 1 1 none "m" ruleDemoX] := by
  have h := (c3_report_suppression_and_severity reporterDemo "m" 1 1 ruleDemoX).2
  rw [h]
  · decide
  · rintro (⟨ids, hids, -⟩ | ⟨rg, hrg, h1, h2⟩)
    · simp [allowGet, reporterDemo] at hids
    · simp [reporterDemo] at hrg
      subst hrg
      omega

/-- C4: Reporter.error and Reporter.info each append exactly one message
(of type error resp. info) unconditionally, and the appended messages do
not depend on the ruleset, the allow map or the ignore ranges. -/
theorem c4_error_info_unconditional (r : Reporter) (msg : String) (line col : Int)
    (rule : CRule) :
    (r.error msg line col rule).messages =
        r.messages ++ [.located .error line col (jsLinesGet r.lines line) msg rule] ∧
    (r.info msg line col rule).messages =
        r.messages ++ [.located .info line col (jsLinesGet r.lines line) msg rule] ∧
    (∀ rs2 allow2 ignore2,
      (Reporter.error { r with ruleset := rs2, allow := allow2, ignore := ignore2 }
          msg line col rule).messages = (r.error msg line col rule).messages ∧
      (Reporter.info { r with ruleset := rs2, allow := allow2, ignore := ignore2 }
          msg line col rule).messages = (r.info msg line col rule).messages) :=
  ⟨rfl, rfl, fun _ _ _ => ⟨rfl, rfl⟩⟩

/-- Modelled from the claim text of C10: the worker posts the report's
messages with every message whose text contains the substring
`/*[[` or the substring `]]*/` removed, and with each remaining message's
rule replaced by an object containing only that rule's id. -/
def claimWorkerPost : List Message → List Message
  | [] => []
  | m :: ms =>
    if jsIncludes m.textOf.data ("/*[[".data) || jsIncludes m.textOf.data ("]]*/".data) then
      claimWorkerPost ms
    else
      (match m with
        | .located kind line col ev t r => .located kind line col ev t { id := r.id, extra := [] }
        | .rollup kind t r => .rollup kind t { id := r.id, extra := [] }) :: claimWorkerPost ms

lemma workerPostLoopEq (l : List Message) :
    (l.filter (fun m =>
        !(jsIncludes m.textOf.data ("/*[[".data)) && !(jsIncludes m.textOf.data ("]]*/".data)))).map
      (fun m =>
        match m with
        | .located kind line col ev t r => Message.located kind line col ev t { id := r.id }
        | .rollup kind t r => Message.rollup kind t { id := r.id }) = claimWorkerPost l := by
  induction l with
  | nil => rfl
  | cons m ms ih =>
    by_cases h1 : jsIncludes m.textOf.data ("/*[[".data) <;>
      by_cases h2 : jsIncludes m.textOf.data ("]]*/".data) <;>
        simp [claimWorkerPost, h1, h2, ih]

/-- C10: the worker's run command posts only the filtered and projected
messages list, which agrees with the claim's description. -/
theorem c10_worker_run_projection (rep : Report) :
    workerRunPost rep = claimWorkerPost rep.messages :=
  workerPostLoopEq rep.messages

lemma ruleLE_iff (a b : CRule) : ruleLE a b = true ↔ a.id ≤ b.id := by
  rcases lt_trichotomy a.id b.id with h | h | h
  · simp [ruleLE, ruleCompare, h, h.le]
  · simp [ruleLE, ruleCompare, h, lt_irrefl, le_refl]
  · simp [ruleLE, ruleCompare, lt_asymm h, h, not_le.mpr h]

lemma ruleLE_trans : ∀ a b c : CRule, ruleLE a b → ruleLE b c → ruleLE a c :=
  fun a b c hab hbc =>
    (ruleLE_iff a c).mpr (le_trans ((ruleLE_iff a b).mp hab) ((ruleLE_iff b c).mp hbc))

lemma ruleLE_total : ∀ a b : CRule, ruleLE a b || ruleLE b a := by
  intro a b
  rcases le_total a.id b.id with h | h
  · simp [(ruleLE_iff a b).mpr h]
  · simp [(ruleLE_iff b a).mpr h]

/-- C5: the registry's rule list is returned in ascending lexicographic id
order, and the id sequence (as the worker's getAllRuleIds derives it) is
the same for any two registration orders of the same rules. -/
theorem c5_rule_list_sorted_and_order_independent (rules₁ rules₂ : List CRule)
    (h : rules₁.Perm rules₂) :
    (getRules rules₁).Pairwise (fun a b => a.id ≤ b.id) ∧
    getAllRuleIds rules₁ = getAllRuleIds rules₂ := by
  have hs : ∀ l : List CRule, (getRules l).Pairwise (fun a b => a.id ≤ b.id) := fun l =>
    (List.sorted_mergeSort ruleLE_trans ruleLE_total l).imp (fun hab => (ruleLE_iff _ _).mp hab)
  refine ⟨hs rules₁, ?_⟩
  have hperm : ((getRules rules₁).map CRule.id).Perm ((getRules rules₂).map CRule.id) :=
    ((List.mergeSort_perm rules₁ ruleLE).map CRule.id).trans
      ((h.map CRule.id).trans ((List.mergeSort_perm rules₂ ruleLE).map CRule.id).symm)
  have hs₁ : ((getRules rules₁).map CRule.id).Pairwise (· ≤ ·) :=
    List.pairwise_map.mpr (hs rules₁)
  have hs₂ : ((getRules rules₂).map CRule.id).Pairwise (· ≤ ·) :=
    List.pairwise_map.mpr (hs rules₂)
  exact List.eq_of_perm_of_sorted hperm hs₁ hs₂

def rulesDemo1 : List CRule := [{ id := "b" }, { id := "a" }]

def rulesDemo2 : List CRule := [{ id := "a" }, { id := "b" }]

theorem c5_rule_list_sorted_and_order_independent_witness :
    (getRules rulesDemo1).Pairwise (fun a b => a.id ≤ b.id) ∧
    getAllRuleIds rulesDemo1 = getAllRuleIds rulesDemo2 :=
  c5_rule_list_sorted_and_order_independent rulesDemo1 rulesDemo2 (by decide)

/-- C2 counterexample: for a text whose prescan finds no candidate
comment, verify writes errors = 2 directly into the caller-supplied
ruleset object, so the object differs after the call. -/
theorem c2_counterexample :
    (verify [] 0 ("abc".data) (some [("important", 1)]) []).callerRuleset ≠
      some [("important", 1)] := by decide

/-- C2 amended: verify leaves the caller-supplied ruleset object unchanged
exactly when the prescan finds a candidate comment (lastIndex at least 0),
because only then is the ruleset cloned; otherwise the single mutation the
call makes on the caller's object is setting errors to 2. -/
theorem c2_caller_ruleset_after_verify (registry : List CRule) (li : Int) (text : Str)
    (rs : List (String × Int)) (acts : List RepAction) :
    (verify registry li text (some rs) acts).callerRuleset =
      some (if 0 ≤ prescanIndex text then rs else rsSet rs "errors" 2) := by
  by_cases h : 0 ≤ prescanIndex text
  · rw [if_pos h]
    simp only [verify, Option.getD_some, if_pos h]
    rcases happ : applyEmbeddedOverrides text rs (prescanIndex text).toNat with ⟨st, f⟩
    cases f <;> simp [happ]
  · rw [if_neg h]
    simp [verify, h]

/-- C9: verify overwrites the module-level regex cursor before any use of
it and keeps no other cross-run state (each run folds its own fresh
Reporter), so a repeated run with the same text, ruleset argument and
parse behaviour returns an identical outcome whatever cursor value an
earlier run left behind. -/
theorem c9_verify_deterministic (registry : List CRule) (li₁ li₂ : Int) (text : Str)
    (rulesetArg : Option (List (String × Int))) (acts : List RepAction) :
    verify registry (verify registry li₁ text rulesetArg acts).lastIndexOut text rulesetArg acts =
      verify registry li₁ text rulesetArg acts ∧
    verify registry li₁ text rulesetArg acts = verify registry li₂ text rulesetArg acts :=
  ⟨rfl, rfl⟩

lemma msgLE_trans : ∀ a b c : Message, msgLE a b → msgLE b c → msgLE a c := by
  intro a b c hab hbc
  cases a <;> cases b <;> cases c <;>
    simp [msgLE, jsSortCompare, Message.isRollup] at hab hbc ⊢ <;> omega

lemma msgLE_total : ∀ a b : Message, msgLE a b || msgLE b a := by
  intro a b
  cases a <;> cases b <;>
    simp [msgLE, jsSortCompare, Message.isRollup] <;> omega

/-- The ordering the claim asserts of the final messages list: a rollup is
never followed by a non-rollup, and among non-rollups the lines are
non-decreasing. -/
def msgOrd (a b : Message) : Prop :=
  (a.isRollup = true → b.isRollup = true) ∧
  (a.isRollup = false → b.isRollup = false → a.lineOf ≤ b.lineOf)

/-- Two messages the comparator of the sort considers equal; stability
means such messages keep their emission order. -/
def msgKeyEq (a b : Message) : Prop :=
  msgLE a b = true ∧ msgLE b a = true

lemma msgLE_imp_msgOrd : ∀ a b : Message, msgLE a b = true → msgOrd a b := by
  intro a b h
  cases a <;> cases b <;>
    simp [msgLE, jsSortCompare, Message.isRollup, msgOrd, Message.lineOf] at h ⊢ <;> omega

lemma verifyOkMessages (registry : List CRule) (li : Int) (text : Str)
    (rulesetArg : Option (List (String × Int))) (acts : List RepAction) (rep : Report)
    (hok : (verify registry li text rulesetArg acts).result = .ok rep) :
    ∃ raw, rep.messages = sortMessages raw := by
  unfold verify at hok
  dsimp only at hok
  split at hok
  · split at hok
    · simp at hok
    · injection hok with h2
      exact ⟨_, by rw [← h2]⟩
  · injection hok with h2
    exact ⟨_, by rw [← h2]⟩

/-- C1: every report verify returns has its messages partitioned with all
non-rollup messages before all rollup messages and the non-rollup lines
non-decreasing; and the sort is stable, so any emission-ordered selection
of comparator-equal messages survives as a subsequence of the sorted list
(equal lines keep emission order). -/
theorem c1_verify_messages_sorted (registry : List CRule) (li : Int) (text : Str)
    (rulesetArg : Option (List (String × Int))) (acts : List RepAction) (rep : Report)
    (hok : (verify registry li text rulesetArg acts).result = .ok rep)
    (l c : List Message) (hsub : c.Sublist l) (hkey : c.Pairwise msgKeyEq) :
    rep.messages.Pairwise msgOrd ∧ c.Sublist (sortMessages l) := by
  obtain ⟨raw, hraw⟩ := verifyOkMessages registry li text rulesetArg acts rep hok
  constructor
  · rw [hraw]
    exact (List.sorted_mergeSort msgLE_trans msgLE_total raw).imp
      (fun hab => msgLE_imp_msgOrd _ _ hab)
  · exact List.sublist_mergeSort msgLE_trans msgLE_total
      (hkey.imp (fun hk => hk.1)) hsub

def ruleDemoR : CRule := { id := "r", extra := [] }

def actsDemo : List RepAction :=
  [RepAction.rollupWarn "w" ruleDemoR, RepAction.info "i" 1 1 ruleDemoR]

def repDemo : Report :=
  { messages := [.located .info 1 1 none "i" ruleDemoR, .rollup .warning "w" ruleDemoR],
    stats := [], ruleset := [("errors", 2)], allow := [], ignore := [] }

def msgDemoA : Message := .located .warning 1 1 none "first" ruleDemoR

def msgDemoB : Message := .located .error 1 2 none "second" ruleDemoR

theorem c1_verify_messages_sorted_witness :
    repDemo.messages.Pairwise msgOrd ∧
    ([msgDemoA, msgDemoB] : List Message).Sublist (sortMessages [msgDemoA, msgDemoB]) :=
  c1_verify_messages_sorted [] 0 ("abc".data) (some []) actsDemo repDemo
    (by
      simp +decide [verify, actsDemo, applyAction, Reporter.info, Reporter.rollupWarn,
        sortMessages, List.mergeSort, List.merge, msgLE, jsSortCompare, repDemo, ruleDemoR,
        rsSet, Message.isRollup, jsLinesGet])
    [msgDemoA, msgDemoB] [msgDemoA, msgDemoB] (List.Sublist.refl _)
    (by
      simp only [List.pairwise_cons, List.mem_singleton, List.not_mem_nil,
        IsEmpty.forall_iff, forall_eq, implies_true, and_true, List.Pairwise.nil, msgKeyEq]
      exact ⟨by decide, by decide⟩)

/-- C6: processing any severity directive raises a TypeError before the
value map can be consulted: `cmd` is the Array `ovr.split(':', 1)` and
`cmd.trim` is not a function, so no ruleset entry is written at all (the
clone comes back unchanged). -/
theorem c6_severity_directive_raises_typefault :
    (applyEmbeddedOverrides ("/* csslint foo:2 */".data) [("foo", 1)] 0).2 =
        some JSFault.typeError ∧
    (applyEmbeddedOverrides ("/* csslint foo:2 */".data) [("foo", 1)] 0).1.ruleset =
        [("foo", 1)] := by
  exact ⟨by decide, by decide⟩

/-- C7: processing any allow directive raises the same TypeError at the
switch discriminant, so no AllowMap entry is recorded under any key. -/
theorem c7_allow_directive_raises_typefault :
    (applyEmbeddedOverrides ("/* csslint allow:foo */".data) [] 0).2 =
        some JSFault.typeError ∧
    (applyEmbeddedOverrides ("/* csslint allow:foo */".data) [] 0).1.allow = [] := by
  exact ⟨by decide, by decide⟩

/-- C8: for a text wrapped in ignore start and end directives, verify does
not return a report with the span's findings suppressed: the first
processed directive raises the TypeError and verify propagates it, so
there is no final report at all. -/
theorem c8_ignore_span_raises_typefault :
    (verify [] 0 ("/* csslint ignore:start */ a /* csslint ignore:end */".data) none
        [RepAction.report "m" 1 1 { id := "r", extra := [] }]).result =
      .error JSFault.typeError := by
  decide
